import Mathlib

/-!
Verification of the StoryWeaver story-graph editor.

The development shallowly embeds the JavaScript source:

* the graph model (`data.scenes`, `addScene`, `deleteScene`, `addChoice`,
  `deleteChoice`, `updateChoiceTarget` of the main script) as pure functions
  over an ordered association list, mirroring a JS object keyed by scene id
  (string keys in insertion order);
* the path analyzer (`findAllPaths` with its inner recursive `explorePath`)
  as a well-founded recursive function, the per-branch visited set making the
  recursion terminate;
* the autosave module (`pushSnapshot`, `autosaveTick`, `handleUndo`,
  `handleRedo` of autosave.js), generic over the type `V` of the story value
  it snapshots, with its serialization (`safeStringify`) and JS truthiness
  passed in as functions;
* `importJSON`'s validation over a small model of parsed JSON values
  (`JSValue`), because the source assigns the raw parsed object to `data`.
-/

namespace StoryWeaver

/-- Hint record of a scene (`{id, text}` in the source). -/
structure Hint where
  id : String
  text : String
deriving DecidableEq, Repr

/-- Choice record: `{id, text, target}` with `target` null or a scene id. -/
structure Choice where
  id : String
  text : String
  target : Option String
deriving DecidableEq, Repr

/-- Scene record, mirroring the object literal built in `addScene`. -/
structure Scene where
  id : String
  title : String
  text : String
  x : Int
  y : Int
  choices : List Choice
  image : Option String
  imageType : String
  backgroundColor : String
  textColor : String
  category : String
  hints : List Hint
  notes : String
  estimatedReadTime : Nat
deriving DecidableEq, Repr

/-- Story-level metadata (`data.storyMetadata`). -/
structure StoryMetadata where
  title : String
  description : String
  subject : String
  difficulty : String
  learningObjectives : List String
  tags : List String
deriving DecidableEq, Repr

/-- The live editor state `data`: `scenes` models the JS object keyed by
scene id as an association list in insertion order. -/
structure GraphData where
  scenes : List (String × Scene)
  startSceneId : Option String
  storyMetadata : StoryMetadata
deriving DecidableEq, Repr

/-- Initial value of `data` in the source. -/
def emptyData : GraphData :=
  { scenes := []
    startSceneId := none
    storyMetadata :=
      { title := "My Interactive Story"
        description := "An educational branching narrative"
        subject := "General"
        difficulty := "Beginner"
        learningObjectives := []
        tags := [] } }

/-- Reading `data.scenes[id]` (`undefined` becomes `none`). -/
def lookupScene (g : GraphData) (id : String) : Option Scene :=
  (g.scenes.find? (fun p => p.1 == id)).map Prod.snd

/-- Keys of `data.scenes` in insertion order (`Object.keys(data.scenes)`). -/
def sceneIds (g : GraphData) : List String := g.scenes.map Prod.fst

/-- Writing `data.scenes[id] = sc`: an existing key keeps its position, a
new key is appended, as for a JS object. -/
def setScene (g : GraphData) (id : String) (sc : Scene) : GraphData :=
  if g.scenes.any (fun p => p.1 == id) then
    { g with scenes := g.scenes.map (fun p => if p.1 == id then (id, sc) else p) }
  else
    { g with scenes := g.scenes ++ [(id, sc)] }

/-- `addScene(x, y)` of the source; the freshly generated id (`makeId`) is a
parameter. Clamps the position, stores the default scene, and makes it the
start scene if none is set. -/
def addScene (g : GraphData) (x y : Int) (id : String) : GraphData :=
  let scene : Scene :=
    { id := id
      title := "New Scene"
      text := "Enter your scene description here..."
      x := max 0 (min x 1800)
      y := max 0 (min y 1300)
      choices := []
      image := none
      imageType := "upload"
      backgroundColor := "#ffffff"
      textColor := "#333333"
      category := "story"
      hints := []
      notes := ""
      estimatedReadTime := 1 }
  let g' := setScene g id scene
  if g'.startSceneId = none then { g' with startSceneId := some id } else g'

/-- `addChoice()` of the source: `selectedSceneId` and the fresh choice id
are parameters; a no-op when the selected scene is absent. -/
def addChoice (g : GraphData) (selectedSceneId : String) (choiceId : String) : GraphData :=
  match lookupScene g selectedSceneId with
  | none => g
  | some sc =>
    setScene g selectedSceneId
      { sc with choices := sc.choices ++ [{ id := choiceId, text := "New choice", target := none }] }

/-- `deleteChoice(choiceId)` of the source: filters the selected scene's
choice list; a no-op when the selected scene is absent. -/
def deleteChoice (g : GraphData) (selectedSceneId : String) (choiceId : String) : GraphData :=
  match lookupScene g selectedSceneId with
  | none => g
  | some sc =>
    setScene g selectedSceneId
      { sc with choices := sc.choices.filter (fun c => c.id != choiceId) }

/-- Mutation of the first choice whose id matches, as `choices.find` followed
by in-place mutation does in the source. -/
def updateFirstChoice (choices : List Choice) (choiceId : String) (f : Choice → Choice) :
    List Choice :=
  match choices with
  | [] => []
  | c :: rest =>
    if c.id == choiceId then f c :: rest else c :: updateFirstChoice rest choiceId f

/-- `updateChoiceTarget(choiceId, targetId)` of the source: sets
`choice.target = targetId || null` on the selected scene's matching choice;
a no-op when the scene or the choice is absent. -/
def updateChoiceTarget (g : GraphData) (selectedSceneId choiceId targetId : String) : GraphData :=
  match lookupScene g selectedSceneId with
  | none => g
  | some sc =>
    match sc.choices.find? (fun c => c.id == choiceId) with
    | none => g
    | some _ =>
      setScene g selectedSceneId
        { sc with
          choices :=
            updateFirstChoice sc.choices choiceId
              (fun c => { c with target := if targetId = "" then none else some targetId }) }

/-- `deleteScene()` of the source with `selectedSceneId` as a parameter:
removes the scene, nulls out every choice across the graph targeting it,
and reassigns `startSceneId` to the first remaining key (or null). A no-op
when the scene is absent. -/
def deleteScene (g : GraphData) (sceneId : String) : GraphData :=
  match lookupScene g sceneId with
  | none => g
  | some _ =>
    let scenes1 := g.scenes.filter (fun p => p.1 != sceneId)
    let scenes2 := scenes1.map (fun p =>
      (p.1, { p.2 with
        choices := p.2.choices.map (fun c =>
          if c.target = some sceneId then { c with target := none } else c) }))
    let start' :=
      if g.startSceneId = some sceneId then scenes2.head?.map Prod.fst
      else g.startSceneId
    { g with scenes := scenes2, startSceneId := start' }

/-- One editor operation of the kind claim C1 quantifies over. -/
inductive Op where
  | create (x y : Int) (id : String)
  | del (id : String)
  | addCh (sceneId choiceId : String)
  | delCh (sceneId choiceId : String)
deriving DecidableEq, Repr

/-- Application of one operation to the live state. -/
def applyOp (g : GraphData) : Op → GraphData
  | .create x y id => addScene g x y id
  | .del id => deleteScene g id
  | .addCh sceneId choiceId => addChoice g sceneId choiceId
  | .delCh sceneId choiceId => deleteChoice g sceneId choiceId

/-- State after a sequence of operations starting from the empty graph. -/
def runOps (ops : List Op) : GraphData := ops.foldl applyOp emptyData

/-- Decidable check of the dangling-reference invariant: every choice's
target is null or the id of a scene currently present. -/
def choicesValid (g : GraphData) : Bool :=
  g.scenes.all (fun p =>
    p.2.choices.all (fun c =>
      match c.target with
      | none => true
      | some t => (lookupScene g t).isSome))

/-- Decidable check that no choice anywhere in the graph targets `sid`. -/
def noTargetsTo (g : GraphData) (sid : String) : Bool :=
  g.scenes.all (fun p => p.2.choices.all (fun c => c.target != some sid))

/-- Measure for the path exploration: the number of scene ids not yet on
the current branch's visited set. -/
def unvisitedCount (g : GraphData) (visited : List String) : Nat :=
  ((sceneIds g).toFinset \ visited.toFinset).card

mutual

/-- `explorePath(sceneId, currentPath, visited)` of the source
`findAllPaths`: a visited scene id ends the branch without recording, a
missing scene ends it, a scene without choices records the extended path,
and otherwise each linked, existing choice target is explored with the
extended path and visited set. Termination: every recursive step moves to a
strictly smaller set of unvisited scene ids (or a structurally smaller
choice list). -/
def explorePath (g : GraphData) (sceneId : String)
    (currentPath : List String) (visited : List String) : List (List String) :=
  if hvis : sceneId ∈ visited then []
  else
    match hl : lookupScene g sceneId with
    | none => []
    | some scene =>
      if scene.choices.length = 0 then [currentPath ++ [sceneId]]
      else exploreChoices g scene.choices (currentPath ++ [sceneId]) (sceneId :: visited)
termination_by (unvisitedCount g visited, 0)
decreasing_by
  apply Prod.Lex.left
  have hmem : sceneId ∈ sceneIds g := by
    unfold lookupScene at hl
    cases hf : g.scenes.find? (fun p => p.1 == sceneId) with
    | none => rw [hf] at hl; simp at hl
    | some p =>
      have hp := List.find?_some hf
      have hm := List.mem_of_find?_eq_some hf
      simp only [beq_iff_eq] at hp
      rw [← hp]
      exact List.mem_map_of_mem Prod.fst hm
  unfold unvisitedCount
  apply Finset.card_lt_card
  have hsub : (sceneIds g).toFinset \ (sceneId :: visited).toFinset ⊆
      (sceneIds g).toFinset \ visited.toFinset := by
    apply Finset.sdiff_subset_sdiff le_rfl
    intro x hx
    simp only [List.toFinset_cons]
    exact Finset.mem_insert_of_mem hx
  rw [Finset.ssubset_iff_of_subset hsub]
  refine ⟨sceneId, ?_, ?_⟩
  · simp [hmem, hvis]
  · simp

/-- Iteration over a scene's choice list inside `explorePath`: a linked
choice whose target exists is explored, any other choice contributes
nothing. -/
def exploreChoices (g : GraphData) (choices : List Choice)
    (path : List String) (visited : List String) : List (List String) :=
  match choices with
  | [] => []
  | c :: rest =>
    (match c.target with
     | some t => if (lookupScene g t).isSome then explorePath g t path visited else []
     | none => []) ++ exploreChoices g rest path visited
termination_by (unvisitedCount g visited, choices.length + 1)
decreasing_by
  · apply Prod.Lex.right
    simp
  · apply Prod.Lex.right
    simp

end

/-- `findAllPaths()` of the source: starts from `startSceneId`'s scene when
set (a missing scene yields no start), else from the first stored scene;
no start scene yields the empty path set. -/
def findAllPaths (g : GraphData) : List (List String) :=
  let startScene : Option Scene :=
    match g.startSceneId with
    | some id => lookupScene g id
    | none => g.scenes.head?.map Prod.snd
  match startScene with
  | none => []
  | some sc => explorePath g sc.id [] []

/-- Possible-story-paths metric of the analytics panel. -/
def pathCount (g : GraphData) : Nat := (findAllPaths g).length

/-- Average-path-length metric of the analytics panel: 0 when there are no
paths, otherwise the mean path length. -/
def averagePathLength (g : GraphData) : ℚ :=
  if (findAllPaths g).length = 0 then 0
  else (((findAllPaths g).map List.length).sum : ℚ) / ((findAllPaths g).length : ℚ)

/-- Snapshot entry `{ts, data, meta:{title}}` of autosave.js, generic over
the type `V` of the story value stored in `data`. -/
structure Snap (V : Type) where
  ts : Nat
  data : V
  title : Option String
deriving DecidableEq, Repr

/-- MAX_SNAPSHOTS of autosave.js. -/
def MAX_SNAPSHOTS : Nat := 25

/-- The `while (snapshots.length > MAX_SNAPSHOTS) snapshots.shift()` loop. -/
def evictFront {α : Type} (l : List α) : List α :=
  if MAX_SNAPSHOTS < l.length then evictFront l.tail else l
termination_by l.length
decreasing_by
  rename_i h
  simp only [MAX_SNAPSHOTS] at h
  simp only [List.length_tail]
  omega

/-- `pushSnapshot(state)` of autosave.js over an abstract story value type:
`ser` stands for `safeStringify` and `titleOf` for `state && state.title`.
Returns the updated snapshot array and the returned index. A last entry
with identical serialized content only has its timestamp refreshed;
otherwise the new entry is appended and the array is evicted from the
front down to the bound. -/
def pushSnapshot {V : Type} (ser : V → String) (titleOf : V → Option String)
    (ts : Nat) (state : V) (snapshots : List (Snap V)) : List (Snap V) × Nat :=
  match snapshots.getLast? with
  | some last =>
    if ser last.data = ser state then
      (snapshots.dropLast ++ [{ last with ts := ts }], snapshots.length - 1)
    else
      let pushed := evictFront (snapshots ++ [{ ts := ts, data := state, title := titleOf state }])
      (pushed, pushed.length - 1)
  | none =>
    let pushed := evictFront (snapshots ++ [{ ts := ts, data := state, title := titleOf state }])
    (pushed, pushed.length - 1)

/-- Repeated `pushSnapshot` over a list of (timestamp, state) entries. -/
def pushAll {V : Type} (ser : V → String) (titleOf : V → Option String)
    (entries : List (Nat × V)) (log : List (Snap V)) : List (Snap V) :=
  entries.foldl (fun l e => (pushSnapshot ser titleOf e.1 e.2 l).1) log

/-- Module state of autosave.js: the persisted snapshot array and
last-saved marker, the tracker's `lastHash`, the two stacks of snapshot
indexes, and the live story value read and written through the
`readStory`/`writeStory` contract. -/
structure SysState (V : Type) where
  snaps : List (Snap V)
  lastSaved : Option Nat
  lastHash : Option String
  undoStack : List Nat
  redoStack : List Nat
  live : V
deriving DecidableEq, Repr

/-- `autosaveTick()` of autosave.js: skip a falsy story, skip an unchanged
hash, otherwise push a snapshot, record the index on the undo stack and
clear the redo stack. -/
def autosaveTick {V : Type} (ser : V → String) (titleOf : V → Option String)
    (truthy : V → Bool) (ts : Nat) (s : SysState V) : SysState V :=
  if truthy s.live = false then s
  else
    if s.lastHash = some (ser s.live) then s
    else
      { s with
        lastHash := some (ser s.live)
        snaps := (pushSnapshot ser titleOf ts s.live s.snaps).1
        lastSaved := some ts
        undoStack := s.undoStack ++ [(pushSnapshot ser titleOf ts s.live s.snaps).2]
        redoStack := [] }

/-- `handleUndo()` of autosave.js: with a non-empty snapshot array, scan
from most recent to oldest for the first entry whose serialized data
differs from the current story, push the current story (recording its
index on the redo stack) and write the found entry back. -/
def handleUndo {V : Type} (ser : V → String) (titleOf : V → Option String)
    (ts : Nat) (s : SysState V) : SysState V × String :=
  if s.snaps.length = 0 then (s, "Nothing to undo")
  else
    match s.snaps.reverse.find? (fun sn => ser sn.data != ser s.live) with
    | some sn =>
      ({ s with
          snaps := (pushSnapshot ser titleOf ts s.live s.snaps).1
          lastSaved := some ts
          redoStack := s.redoStack ++ [(pushSnapshot ser titleOf ts s.live s.snaps).2]
          live := sn.data
          lastHash := some (ser sn.data) }, "Undo")
    | none => (s, "No earlier snapshot")

/-- `handleRedo()` of autosave.js: pop the redo stack (reporting when it is
empty), look the popped index up in the snapshot array, push the current
story if truthy, and write the indexed snapshot back. -/
def handleRedo {V : Type} (ser : V → String) (titleOf : V → Option String)
    (truthy : V → Bool) (ts : Nat) (s : SysState V) : SysState V × String :=
  match s.redoStack.getLast? with
  | none => (s, "Nothing to redo")
  | some idx =>
    match s.snaps[idx]? with
    | none => ({ s with redoStack := s.redoStack.dropLast }, "Redo failed")
    | some snap =>
      if truthy s.live then
        ({ s with
            snaps := (pushSnapshot ser titleOf ts s.live s.snaps).1
            lastSaved := some ts
            redoStack := s.redoStack.dropLast
            live := snap.data
            lastHash := some (ser snap.data) }, "Redo")
      else
        ({ s with
            redoStack := s.redoStack.dropLast
            live := snap.data
            lastHash := some (ser snap.data) }, "Redo")

/-- Parsed JSON value as `JSON.parse` can produce it, for modelling
`importJSON`'s validation of the raw imported object. -/
inductive JSValue where
  | vnull
  | vbool (b : Bool)
  | vnum (n : Int)
  | vstr (s : String)
  | varr (elems : List JSValue)
  | vobj (fields : List (String × JSValue))
deriving Repr

/-- JS `typeof` on a parsed JSON value (`typeof null` is "object"). -/
def typeofJS : JSValue → String
  | .vnull => "object"
  | .vbool _ => "boolean"
  | .vnum _ => "number"
  | .vstr _ => "string"
  | .varr _ => "object"
  | .vobj _ => "object"

/-- JS truthiness of a parsed JSON value. -/
def jsTruthy : JSValue → Bool
  | .vnull => false
  | .vbool b => b
  | .vnum n => n != 0
  | .vstr s => s != ""
  | .varr _ => true
  | .vobj _ => true

/-- Named-property access on a parsed JSON value; `none` is `undefined`. -/
def getProp : JSValue → String → Option JSValue
  | .vobj fields, k => (fields.find? (fun p => p.1 == k)).map Prod.snd
  | _, _ => none

/-- JS `typeof v.k`, "undefined" for a missing property. -/
def typeofProp (v : JSValue) (k : String) : String :=
  match getProp v k with
  | none => "undefined"
  | some w => typeofJS w

/-- `importJSON`'s validation and state change of the main script: the
parsed payload replaces `data` when it is truthy and its `scenes` property
has `typeof` "object"; otherwise the current state is kept and the format
error is alerted. -/
def importJSON (current imported : JSValue) : JSValue × String :=
  if jsTruthy imported && (typeofProp imported "scenes" == "object") then
    (imported, "Story imported successfully!")
  else
    (current, "Invalid story file format.")

/-- Claim C8's scenario: two scenes S1 (the start) and S2, and one choice
on S1 targeting S2, built by the editor operations. -/
def scenarioGraph : GraphData :=
  updateChoiceTarget
    (addChoice (addScene (addScene emptyData 100 100 "S1") 400 100 "S2") "S1" "c1")
    "S1" "c1" "S2"

/-- Claim C2's 2-cycle: scene A's only choice targets B and B's only choice
targets A, built by the editor operations. -/
def twoCycleGraph : GraphData :=
  updateChoiceTarget
    (addChoice
      (updateChoiceTarget
        (addChoice (addScene (addScene emptyData 0 0 "A") 0 0 "B") "A" "cA")
        "A" "cA" "B")
      "B" "cB")
    "B" "cB" "A"

/-- Twenty-six pairwise-distinct snapshot contents for exercising the
25-entry bound. -/
def sampleEntries : List (Nat × String) :=
  [(0, "s0"), (1, "s1"), (2, "s2"), (3, "s3"), (4, "s4"), (5, "s5"), (6, "s6"),
   (7, "s7"), (8, "s8"), (9, "s9"), (10, "s10"), (11, "s11"), (12, "s12"),
   (13, "s13"), (14, "s14"), (15, "s15"), (16, "s16"), (17, "s17"), (18, "s18"),
   (19, "s19"), (20, "s20"), (21, "s21"), (22, "s22"), (23, "s23"), (24, "s24"),
   (25, "s25")]

/-- Propositional form of the dangling-reference invariant. -/
def ChoicesOk (g : GraphData) : Prop :=
  ∀ p ∈ g.scenes, ∀ c ∈ p.2.choices, ∀ t, c.target = some t →
    (lookupScene g t).isSome = true

theorem choicesValid_eq_true_iff {g : GraphData} :
    choicesValid g = true ↔ ChoicesOk g := by
  unfold choicesValid ChoicesOk
  simp only [List.all_eq_true]
  constructor
  · intro h p hp c hc t ht
    have := h p hp c hc
    rw [ht] at this
    exact this
  · intro h p hp c hc
    cases ht : c.target with
    | none => simp
    | some t => exact h p hp c hc t ht

theorem find?_replace_self (id : String) (sc : Scene) (l : List (String × Scene))
    (h : l.any (fun p => p.1 == id) = true) :
    (l.map (fun p => if p.1 == id then (id, sc) else p)).find? (fun p => p.1 == id) =
      some (id, sc) := by
  induction l with
  | nil => simp at h
  | cons a l ih =>
    by_cases ha : a.1 = id
    · have hb : (a.1 == id) = true := by simp [ha]
      rw [List.map_cons, List.find?_cons]
      simp only [hb, if_true]
      simp
    · have hb : (a.1 == id) = false := by simp [ha]
      have h' : l.any (fun p => p.1 == id) = true := by
        simp only [List.any_cons, hb, Bool.false_or] at h
        exact h
      rw [List.map_cons, List.find?_cons]
      simp only [hb, Bool.false_eq_true, if_false]
      exact ih h'

theorem find?_replace_ne (id t : String) (sc : Scene) (l : List (String × Scene))
    (h : t ≠ id) :
    (l.map (fun p => if p.1 == id then (id, sc) else p)).find? (fun p => p.1 == t) =
      l.find? (fun p => p.1 == t) := by
  have hit : (id == t) = false := by
    simp only [beq_eq_false_iff_ne, ne_eq]
    exact fun e => h e.symm
  induction l with
  | nil => simp
  | cons a l ih =>
    by_cases ha : a.1 = id
    · have hb : (a.1 == id) = true := by simp [ha]
      have hat : (a.1 == t) = false := by
        simp only [beq_eq_false_iff_ne, ne_eq, ha]
        exact fun e => h e.symm
      rw [List.map_cons, List.find?_cons, List.find?_cons]
      simp only [hb, if_true, hit, hat, Bool.false_eq_true]
      exact ih
    · have hb : (a.1 == id) = false := by simp [ha]
      rw [List.map_cons, List.find?_cons, List.find?_cons]
      simp only [hb, Bool.false_eq_true, if_false]
      cases hat : (a.1 == t) with
      | true => rfl
      | false => exact ih

theorem find?_append_single_self (id : String) (sc : Scene) (l : List (String × Scene))
    (h : l.any (fun p => p.1 == id) = false) :
    (l ++ [(id, sc)]).find? (fun p => p.1 == id) = some (id, sc) := by
  induction l with
  | nil => simp [List.find?_cons]
  | cons a l ih =>
    simp only [List.any_cons, Bool.or_eq_false_iff] at h
    rw [List.cons_append, List.find?_cons]
    simp only [h.1, Bool.false_eq_true]
    exact ih h.2

theorem find?_append_single_ne (id t : String) (sc : Scene) (l : List (String × Scene))
    (h : t ≠ id) :
    (l ++ [(id, sc)]).find? (fun p => p.1 == t) = l.find? (fun p => p.1 == t) := by
  have hit : (id == t) = false := by
    simp only [beq_eq_false_iff_ne, ne_eq]
    exact fun e => h e.symm
  induction l with
  | nil => simp [List.find?_cons, hit]
  | cons a l ih =>
    rw [List.cons_append, List.find?_cons, List.find?_cons]
    cases hat : (a.1 == t) with
    | true => rfl
    | false => exact ih

theorem lookupScene_setScene_self (g : GraphData) (id : String) (sc : Scene) :
    lookupScene (setScene g id sc) id = some sc := by
  unfold setScene lookupScene
  by_cases hany : g.scenes.any (fun p => p.1 == id) = true
  · simp only [hany, if_true]
    rw [find?_replace_self id sc g.scenes hany]
    rfl
  · rw [if_neg hany]
    rw [Bool.not_eq_true] at hany
    rw [find?_append_single_self id sc g.scenes hany]
    rfl

theorem lookupScene_setScene_ne (g : GraphData) (id : String) (sc : Scene)
    (t : String) (h : t ≠ id) :
    lookupScene (setScene g id sc) t = lookupScene g t := by
  unfold setScene lookupScene
  by_cases hany : g.scenes.any (fun p => p.1 == id) = true
  · simp only [hany, if_true]
    rw [find?_replace_ne id t sc g.scenes h]
  · rw [if_neg hany]
    rw [find?_append_single_ne id t sc g.scenes h]

theorem lookupScene_setScene_isSome (g : GraphData) (id : String) (sc : Scene)
    (t : String) (h : (lookupScene g t).isSome = true) :
    (lookupScene (setScene g id sc) t).isSome = true := by
  by_cases ht : t = id
  · subst ht; rw [lookupScene_setScene_self]; rfl
  · rw [lookupScene_setScene_ne g id sc t ht]; exact h

theorem mem_setScene {g : GraphData} {id : String} {sc : Scene} {p : String × Scene}
    (h : p ∈ (setScene g id sc).scenes) : p = (id, sc) ∨ p ∈ g.scenes := by
  unfold setScene at h
  by_cases hany : g.scenes.any (fun p => p.1 == id)
  · simp only [hany, if_true] at h
    rw [List.mem_map] at h
    obtain ⟨q, hq, hqe⟩ := h
    by_cases hqi : q.1 = id
    · left
      simp [hqi] at hqe
      exact hqe.symm
    · right
      have : (q.1 == id) = false := by simp [hqi]
      simp [this] at hqe
      exact hqe ▸ hq
  · simp only [hany, if_false] at h
    rcases List.mem_append.mp h with h | h
    · right; exact h
    · left; simpa using h

theorem exists_key_of_lookupScene {g : GraphData} {id : String} {sc : Scene}
    (h : lookupScene g id = some sc) : ∃ k, (k, sc) ∈ g.scenes := by
  unfold lookupScene at h
  cases hf : g.scenes.find? (fun p => p.1 == id) with
  | none => rw [hf] at h; simp at h
  | some p =>
    rw [hf] at h
    simp only [Option.map] at h
    injection h with h
    refine ⟨p.1, ?_⟩
    have hmem := List.mem_of_find?_eq_some hf
    have : (p.1, sc) = p := by rw [← h]
    rwa [this]

theorem lookupScene_update_start (g : GraphData) (s : Option String) (t : String) :
    lookupScene { g with startSceneId := s } t = lookupScene g t := rfl

theorem choicesOk_update_start {g : GraphData} {s : Option String} :
    ChoicesOk { g with startSceneId := s } ↔ ChoicesOk g := Iff.rfl

theorem choicesOk_setScene {g : GraphData} {id : String} {sc : Scene}
    (h : ChoicesOk g)
    (hsc : ∀ c ∈ sc.choices, ∀ t, c.target = some t → (lookupScene g t).isSome = true) :
    ChoicesOk (setScene g id sc) := by
  intro p hp c hc t ht
  rcases mem_setScene hp with he | hm
  · subst he
    exact lookupScene_setScene_isSome g id sc t (hsc c hc t ht)
  · exact lookupScene_setScene_isSome g id sc t (h p hm c hc t ht)

theorem choicesOk_addScene (g : GraphData) (x y : Int) (id : String)
    (h : ChoicesOk g) : ChoicesOk (addScene g x y id) := by
  simp only [addScene]
  split
  · rw [choicesOk_update_start]
    exact choicesOk_setScene h (by intro c hc; simp at hc)
  · exact choicesOk_setScene h (by intro c hc; simp at hc)

theorem choicesOk_addChoice (g : GraphData) (sid cid : String)
    (h : ChoicesOk g) : ChoicesOk (addChoice g sid cid) := by
  unfold addChoice
  cases hl : lookupScene g sid with
  | none => exact h
  | some sc =>
    apply choicesOk_setScene h
    intro c hc t ht
    rcases List.mem_append.mp hc with hc | hc
    · obtain ⟨k, hk⟩ := exists_key_of_lookupScene hl
      exact h (k, sc) hk c hc t ht
    · simp at hc
      rw [hc] at ht
      simp at ht

theorem choicesOk_deleteChoice (g : GraphData) (sid cid : String)
    (h : ChoicesOk g) : ChoicesOk (deleteChoice g sid cid) := by
  unfold deleteChoice
  cases hl : lookupScene g sid with
  | none => exact h
  | some sc =>
    apply choicesOk_setScene h
    intro c hc t ht
    obtain ⟨k, hk⟩ := exists_key_of_lookupScene hl
    exact h (k, sc) hk c (List.mem_of_mem_filter hc) t ht

theorem find?_map_key_preserving (F : Scene → Scene) (t : String)
    (l : List (String × Scene)) :
    (l.map (fun p => (p.1, F p.2))).find? (fun p => p.1 == t) =
      (l.find? (fun p => p.1 == t)).map (fun p => (p.1, F p.2)) := by
  induction l with
  | nil => simp
  | cons a l ih =>
    rw [List.map_cons, List.find?_cons, List.find?_cons]
    cases hat : (a.1 == t) with
    | true => rfl
    | false => exact ih

theorem find?_filter_ne_key (sid t : String) (h : t ≠ sid)
    (l : List (String × Scene)) :
    (l.filter (fun p => p.1 != sid)).find? (fun p => p.1 == t) =
      l.find? (fun p => p.1 == t) := by
  induction l with
  | nil => simp
  | cons a l ih =>
    by_cases ha : a.1 = sid
    · have hb : (a.1 != sid) = false := by simp [ha]
      have hat : (a.1 == t) = false := by
        simp only [beq_eq_false_iff_ne, ne_eq, ha]
        exact fun e => h e.symm
      rw [List.filter_cons, List.find?_cons]
      simp only [hb, Bool.false_eq_true, if_false, hat]
      exact ih
    · have hb : (a.1 != sid) = true := by simp [ha]
      rw [List.filter_cons, List.find?_cons]
      simp only [hb, if_true]
      rw [List.find?_cons]
      cases hat : (a.1 == t) with
      | true => rfl
      | false => exact ih

theorem lookupScene_deleteScene_isSome (g : GraphData) (sid t : String)
    (ht : t ≠ sid) (h : (lookupScene g t).isSome = true) :
    (lookupScene (deleteScene g sid) t).isSome = true := by
  unfold deleteScene
  cases hl : lookupScene g sid with
  | none => exact h
  | some sc0 =>
    show (Option.map Prod.snd (List.find? _ _)).isSome = true
    rw [find?_map_key_preserving
      (fun sc => { sc with
        choices := sc.choices.map (fun c =>
          if c.target = some sid then { c with target := none } else c) }) t
      (g.scenes.filter (fun p => p.1 != sid))]
    rw [find?_filter_ne_key sid t ht g.scenes]
    unfold lookupScene at h
    cases hf : g.scenes.find? (fun p => p.1 == t) with
    | none => rw [hf] at h; simp at h
    | some p => simp

theorem choicesOk_deleteScene (g : GraphData) (sid : String)
    (h : ChoicesOk g) : ChoicesOk (deleteScene g sid) := by
  intro p hp c hc t ht
  by_cases hl : (lookupScene g sid).isSome = true
  · have hscenes : (deleteScene g sid).scenes =
        (g.scenes.filter (fun p => p.1 != sid)).map (fun p =>
          (p.1, { p.2 with
            choices := p.2.choices.map (fun c =>
              if c.target = some sid then { c with target := none } else c) })) := by
      unfold deleteScene
      cases hl' : lookupScene g sid with
      | none => rw [hl'] at hl; simp at hl
      | some sc0 => rfl
    rw [hscenes] at hp
    obtain ⟨q, hq, hqe⟩ := List.mem_map.mp hp
    have hqmem := List.mem_of_mem_filter hq
    subst hqe
    simp only at hc
    obtain ⟨c0, hc0, hc0e⟩ := List.mem_map.mp hc
    by_cases hsid : c0.target = some sid
    · rw [if_pos hsid] at hc0e
      rw [← hc0e] at ht
      simp at ht
    · rw [if_neg hsid] at hc0e
      subst hc0e
      have htne : t ≠ sid := by
        intro he
        rw [he] at ht
        exact hsid ht
      exact lookupScene_deleteScene_isSome g sid t htne (h q hqmem c0 hc0 t ht)
  · have : deleteScene g sid = g := by
      unfold deleteScene
      cases hl' : lookupScene g sid with
      | none => rfl
      | some sc0 => rw [hl'] at hl; simp at hl
    rw [this] at hp ⊢
    exact h p hp c hc t ht

theorem choicesOk_applyOp (g : GraphData) (op : Op)
    (h : ChoicesOk g) : ChoicesOk (applyOp g op) := by
  cases op with
  | create x y id => exact choicesOk_addScene g x y id h
  | del id => exact choicesOk_deleteScene g id h
  | addCh sid cid => exact choicesOk_addChoice g sid cid h
  | delCh sid cid => exact choicesOk_deleteChoice g sid cid h

theorem choicesOk_runOps (ops : List Op) : ChoicesOk (runOps ops) := by
  unfold runOps
  suffices h : ∀ g, ChoicesOk g → ChoicesOk (ops.foldl applyOp g) by
    apply h
    intro p hp
    simp [emptyData] at hp
  induction ops with
  | nil => intro g h; exact h
  | cons op rest ih => intro g h; exact ih _ (choicesOk_applyOp g op h)

theorem noTargetsTo_deleteScene (g : GraphData) (sid : String)
    (h : (lookupScene g sid).isSome = true) :
    noTargetsTo (deleteScene g sid) sid = true := by
  have hscenes : (deleteScene g sid).scenes =
      (g.scenes.filter (fun p => p.1 != sid)).map (fun p =>
        (p.1, { p.2 with
          choices := p.2.choices.map (fun c =>
            if c.target = some sid then { c with target := none } else c) })) := by
    unfold deleteScene
    cases hl : lookupScene g sid with
    | none => rw [hl] at h; simp at h
    | some sc0 => rfl
  unfold noTargetsTo
  rw [hscenes]
  rw [List.all_eq_true]
  intro p hp
  obtain ⟨q, hq, hqe⟩ := List.mem_map.mp hp
  subst hqe
  rw [List.all_eq_true]
  simp only
  intro c hc
  obtain ⟨c0, hc0, hc0e⟩ := List.mem_map.mp hc
  by_cases hsid : c0.target = some sid
  · rw [if_pos hsid] at hc0e
    rw [← hc0e]
    simp
  · rw [if_neg hsid] at hc0e
    rw [← hc0e]
    simpa using hsid

/-- Claim C1: after every prefix of a sequence of
createScene/deleteScene/addChoice/deleteChoice operations starting from the
empty graph, every choice's `target` is either null or the id of a scene
currently present in the graph; and `deleteScene(id)` nulls out the target
of every choice, in every scene of the graph, that pointed at the deleted
id. -/
theorem deleteScene_nulls_targets_and_ops_preserve_validity :
    (∀ ops : List Op, choicesValid (runOps ops) = true) ∧
    (∀ (g : GraphData) (sid : String), (lookupScene g sid).isSome = true →
      noTargetsTo (deleteScene g sid) sid = true) := by
  constructor
  · intro ops
    rw [choicesValid_eq_true_iff]
    exact choicesOk_runOps ops
  · intro g sid h
    exact noTargetsTo_deleteScene g sid h

theorem deleteScene_start_cases (g : GraphData) (sid : String)
    (hsome : (lookupScene g sid).isSome = true) (hstart : g.startSceneId = some sid) :
    (deleteScene g sid).startSceneId = (deleteScene g sid).scenes.head?.map Prod.fst := by
  unfold deleteScene
  cases hl : lookupScene g sid with
  | none => rw [hl] at hsome; simp at hsome
  | some sc0 =>
    simp only [hstart, if_pos rfl]
    rfl

theorem lookupScene_head_isSome (g : GraphData) (k : String) (sc : Scene)
    (h : g.scenes.head? = some (k, sc)) :
    (lookupScene g k).isSome = true := by
  unfold lookupScene
  cases hs : g.scenes with
  | nil => rw [hs] at h; simp at h
  | cons a l =>
    rw [hs] at h
    simp only [List.head?_cons, Option.some.injEq] at h
    subst h
    rw [List.find?_cons_of_pos _ (by simp)]
    rfl

/-- Claim C5: when `deleteScene` removes the scene referenced by
`startSceneId`, afterwards `startSceneId` is null if no scene remains, and
otherwise is non-null and references one of the remaining scenes. -/
theorem deleteScene_reassigns_start :
    ∀ (g : GraphData) (sid : String),
      (lookupScene g sid).isSome = true → g.startSceneId = some sid →
      ((deleteScene g sid).scenes = [] → (deleteScene g sid).startSceneId = none) ∧
      ((deleteScene g sid).scenes ≠ [] →
        ∃ s, (deleteScene g sid).startSceneId = some s ∧
          (lookupScene (deleteScene g sid) s).isSome = true) := by
  intro g sid hsome hstart
  have hcases := deleteScene_start_cases g sid hsome hstart
  constructor
  · intro hempty
    rw [hcases, hempty]
    rfl
  · intro hne
    cases hs : (deleteScene g sid).scenes with
    | nil => exact absurd hs hne
    | cons a l =>
      refine ⟨a.1, ?_, ?_⟩
      · rw [hcases, hs]
        rfl
      · exact lookupScene_head_isSome (deleteScene g sid) a.1 a.2
          (by rw [hs]; rfl)

/-- Closed witness for C5: deleting the start scene of a two-scene graph
leaves a non-null start referencing the remaining scene; a fully concrete
instance of `deleteScene_reassigns_start`. -/
theorem deleteScene_reassigns_start_witness :
    (deleteScene (addScene (addScene emptyData 0 0 "A") 0 0 "B") "A").scenes ≠ [] ∧
    (∃ s, (deleteScene (addScene (addScene emptyData 0 0 "A") 0 0 "B") "A").startSceneId = some s ∧
      (lookupScene (deleteScene (addScene (addScene emptyData 0 0 "A") 0 0 "B") "A") s).isSome = true) := by
  have h := deleteScene_reassigns_start (addScene (addScene emptyData 0 0 "A") 0 0 "B") "A"
    (by rfl) (by rfl)
  refine ⟨by decide, h.2 (by decide)⟩


theorem mem_sceneIds_of_lookup {g : GraphData} {s : String} {sc : Scene}
    (h : lookupScene g s = some sc) : s ∈ sceneIds g := by
  unfold lookupScene at h
  cases hf : g.scenes.find? (fun p => p.1 == s) with
  | none => rw [hf] at h; simp at h
  | some p =>
    have hp := List.find?_some hf
    have hm := List.mem_of_find?_eq_some hf
    simp only [beq_iff_eq] at hp
    rw [← hp]
    exact List.mem_map_of_mem Prod.fst hm

theorem unvisitedCount_pos {g : GraphData} {s : String} {visited : List String}
    (hs : s ∈ sceneIds g) (hv : s ∉ visited) : 0 < unvisitedCount g visited := by
  unfold unvisitedCount
  apply Finset.card_pos.mpr
  exact ⟨s, by simp [hs, hv]⟩

theorem unvisitedCount_cons_lt {g : GraphData} {s : String} {visited : List String}
    (hs : s ∈ sceneIds g) (hv : s ∉ visited) :
    unvisitedCount g (s :: visited) < unvisitedCount g visited := by
  unfold unvisitedCount
  apply Finset.card_lt_card
  have hsub : (sceneIds g).toFinset \ (s :: visited).toFinset ⊆
      (sceneIds g).toFinset \ visited.toFinset := by
    apply Finset.sdiff_subset_sdiff le_rfl
    intro x hx
    simp only [List.toFinset_cons]
    exact Finset.mem_insert_of_mem hx
  rw [Finset.ssubset_iff_of_subset hsub]
  refine ⟨s, ?_, ?_⟩
  · simp [hs, hv]
  · simp

theorem explorePath_eq (g : GraphData) (sceneId : String)
    (currentPath visited : List String) :
    explorePath g sceneId currentPath visited =
      (if sceneId ∈ visited then []
       else
         match lookupScene g sceneId with
         | none => []
         | some scene =>
           if scene.choices.length = 0 then [currentPath ++ [sceneId]]
           else exploreChoices g scene.choices (currentPath ++ [sceneId]) (sceneId :: visited)) := by
  rw [explorePath]
  by_cases hvis : sceneId ∈ visited
  · simp [hvis]
  · simp only [dif_neg hvis, if_neg hvis]
    cases hl : lookupScene g sceneId <;> simp

theorem exploreChoices_path_prop (g : GraphData) (visited : List String)
    (IH : ∀ sceneId path, path.Nodup → (∀ x ∈ path, x ∈ visited) →
        (∀ x ∈ visited, x ∈ sceneIds g) →
        ∀ p ∈ explorePath g sceneId path visited,
          p.Nodup ∧ ∀ x ∈ p, x ∈ sceneIds g) :
    ∀ choices path, path.Nodup → (∀ x ∈ path, x ∈ visited) →
      (∀ x ∈ visited, x ∈ sceneIds g) →
      ∀ p ∈ exploreChoices g choices path visited,
        p.Nodup ∧ ∀ x ∈ p, x ∈ sceneIds g := by
  intro choices
  induction choices with
  | nil =>
    intro path _ _ _ p hp
    rw [exploreChoices] at hp
    simp at hp
  | cons c rest ih =>
    intro path h1 h2 h3 p hp
    rw [exploreChoices] at hp
    rcases List.mem_append.mp hp with hp | hp
    · split at hp
      · split at hp
        · exact IH _ path h1 h2 h3 p hp
        · simp at hp
      · simp at hp
    · exact ih path h1 h2 h3 p hp

theorem explorePath_path_prop (g : GraphData) :
    ∀ (n : Nat) (visited : List String), unvisitedCount g visited ≤ n →
      ∀ sceneId path, path.Nodup → (∀ x ∈ path, x ∈ visited) →
        (∀ x ∈ visited, x ∈ sceneIds g) →
        ∀ p ∈ explorePath g sceneId path visited,
          p.Nodup ∧ ∀ x ∈ p, x ∈ sceneIds g := by
  intro n
  induction n with
  | zero =>
    intro visited hcount sceneId path _ _ _ p hp
    rw [explorePath_eq] at hp
    by_cases hvis : sceneId ∈ visited
    · simp [hvis] at hp
    · rw [if_neg hvis] at hp
      cases hl : lookupScene g sceneId with
      | none => rw [hl] at hp; simp at hp
      | some scene =>
        exfalso
        have := unvisitedCount_pos (mem_sceneIds_of_lookup hl) hvis
        omega
  | succ n ihn =>
    intro visited hcount sceneId path h1 h2 h3 p hp
    rw [explorePath_eq] at hp
    by_cases hvis : sceneId ∈ visited
    · simp [hvis] at hp
    · rw [if_neg hvis] at hp
      cases hl : lookupScene g sceneId with
      | none => rw [hl] at hp; simp at hp
      | some scene =>
        simp only [hl] at hp
        have hmem := mem_sceneIds_of_lookup hl
        have hnotpath : sceneId ∉ path := fun hx => hvis (h2 sceneId hx)
        have h1' : (path ++ [sceneId]).Nodup := by
          rw [List.nodup_append]
          refine ⟨h1, List.nodup_singleton sceneId, ?_⟩
          intro x hx
          simp only [List.mem_singleton]
          intro he
          rw [he] at hx
          exact hnotpath hx
        have h2' : ∀ x ∈ path ++ [sceneId], x ∈ sceneId :: visited := by
          intro x hx
          rcases List.mem_append.mp hx with hx | hx
          · exact List.mem_cons_of_mem sceneId (h2 x hx)
          · simp only [List.mem_singleton] at hx
            rw [hx]
            exact List.mem_cons_self sceneId visited
        have h3' : ∀ x ∈ sceneId :: visited, x ∈ sceneIds g := by
          intro x hx
          rcases List.mem_cons.mp hx with hx | hx
          · rw [hx]; exact hmem
          · exact h3 x hx
        by_cases hch : scene.choices.length = 0
        · rw [if_pos hch] at hp
          simp only [List.mem_singleton] at hp
          rw [hp]
          exact ⟨h1', fun x hx => h3' x (h2' x hx)⟩
        · rw [if_neg hch] at hp
          have hlt : unvisitedCount g (sceneId :: visited) ≤ n := by
            have := unvisitedCount_cons_lt hmem hvis
            omega
          exact exploreChoices_path_prop g (sceneId :: visited)
            (fun sid path => ihn (sceneId :: visited) hlt sid path)
            scene.choices (path ++ [sceneId]) h1' h2' h3' p hp

/-- Claim C2: for every graph, including graphs whose choice edges form
directed cycles, `findAllPaths` is a total function (witnessed by its
well-founded definition) whose finite result contains only paths without a
repeated scene id, each therefore no longer than the number of scenes. -/
theorem findAllPaths_nodup_and_bounded :
    ∀ g : GraphData, (sceneIds g).Nodup →
      ∀ p ∈ findAllPaths g, p.Nodup ∧ p.length ≤ g.scenes.length := by
  intro g hnodup p hp
  have hmain : ∀ sc : Scene, p ∈ explorePath g sc.id [] [] →
      p.Nodup ∧ ∀ x ∈ p, x ∈ sceneIds g := by
    intro sc hp
    exact explorePath_path_prop g (unvisitedCount g []) [] le_rfl sc.id []
      List.nodup_nil (by simp) (by simp) p hp
  have hprop : p.Nodup ∧ ∀ x ∈ p, x ∈ sceneIds g := by
    simp only [findAllPaths] at hp
    cases hs : g.startSceneId with
    | some id =>
      simp only [hs] at hp
      cases hl : lookupScene g id with
      | none => simp only [hl] at hp; simp at hp
      | some sc => simp only [hl] at hp; exact hmain sc hp
    | none =>
      simp only [hs] at hp
      cases hh : g.scenes.head? with
      | none => simp only [hh] at hp; simp at hp
      | some q => simp only [hh, Option.map_some'] at hp; exact hmain q.2 hp
  refine ⟨hprop.1, ?_⟩
  have hcard : p.length = p.toFinset.card := (List.toFinset_card_of_nodup hprop.1).symm
  have hsub : p.toFinset ⊆ (sceneIds g).toFinset := by
    intro x hx
    rw [List.mem_toFinset] at hx ⊢
    exact hprop.2 x hx
  calc p.length = p.toFinset.card := hcard
    _ ≤ (sceneIds g).toFinset.card := Finset.card_le_card hsub
    _ ≤ (sceneIds g).length := List.toFinset_card_le (sceneIds g)
    _ = g.scenes.length := by simp [sceneIds]

theorem findAllPaths_scenarioGraph_eq : findAllPaths scenarioGraph = [["S1", "S2"]] := by
  have hsg : scenarioGraph =
      { scenes := [
          ("S1",
            { id := "S1", title := "New Scene",
              text := "Enter your scene description here...", x := 100, y := 100,
              choices := [{ id := "c1", text := "New choice", target := some "S2" }],
              image := none, imageType := "upload", backgroundColor := "#ffffff",
              textColor := "#333333", category := "story", hints := [], notes := "",
              estimatedReadTime := 1 }),
          ("S2",
            { id := "S2", title := "New Scene",
              text := "Enter your scene description here...", x := 400, y := 100,
              choices := [],
              image := none, imageType := "upload", backgroundColor := "#ffffff",
              textColor := "#333333", category := "story", hints := [], notes := "",
              estimatedReadTime := 1 })],
        startSceneId := some "S1"
        storyMetadata := emptyData.storyMetadata } := by rfl
  rw [hsg]
  simp +decide [findAllPaths, explorePath_eq, exploreChoices, lookupScene, List.find?, emptyData]

/-- Claim C2's witness at the scenario graph: the hypotheses of
`findAllPaths_nodup_and_bounded` hold there and the recorded path obeys the
conclusion. -/
theorem findAllPaths_nodup_and_bounded_witness :
    (["S1", "S2"] : List String).Nodup ∧
      (["S1", "S2"] : List String).length ≤ scenarioGraph.scenes.length :=
  findAllPaths_nodup_and_bounded scenarioGraph (by decide) ["S1", "S2"]
    (by rw [findAllPaths_scenarioGraph_eq]; exact List.mem_singleton_self _)

theorem findAllPaths_twoCycleGraph_eq : findAllPaths twoCycleGraph = [] := by
  have htc : twoCycleGraph =
      { scenes := [
          ("A",
            { id := "A", title := "New Scene",
              text := "Enter your scene description here...", x := 0, y := 0,
              choices := [{ id := "cA", text := "New choice", target := some "B" }],
              image := none, imageType := "upload", backgroundColor := "#ffffff",
              textColor := "#333333", category := "story", hints := [], notes := "",
              estimatedReadTime := 1 }),
          ("B",
            { id := "B", title := "New Scene",
              text := "Enter your scene description here...", x := 0, y := 0,
              choices := [{ id := "cB", text := "New choice", target := some "A" }],
              image := none, imageType := "upload", backgroundColor := "#ffffff",
              textColor := "#333333", category := "story", hints := [], notes := "",
              estimatedReadTime := 1 })],
        startSceneId := some "A"
        storyMetadata := emptyData.storyMetadata } := by rfl
  rw [htc]
  simp +decide [findAllPaths, explorePath_eq, exploreChoices, lookupScene, List.find?, emptyData]

/-- Claim C8: `findAllPaths` on the empty graph is the empty path set with
both derived metrics zero; a graph whose start scene exists and has zero
choices yields exactly the one path `[start]`; and the graph built by
createScene S1, createScene S2 (start = S1) and a choice on S1 targeting S2
yields exactly the one path `[S1, S2]`. -/
theorem findAllPaths_edge_cases :
    (findAllPaths emptyData = [] ∧ pathCount emptyData = 0 ∧
      averagePathLength emptyData = 0) ∧
    (∀ (g : GraphData) (s : String) (sc : Scene), g.startSceneId = some s →
      lookupScene g s = some sc → sc.id = s → sc.choices = [] →
      findAllPaths g = [[s]]) ∧
    findAllPaths scenarioGraph = [["S1", "S2"]] := by
  refine ⟨⟨?_, ?_, ?_⟩, ?_, findAllPaths_scenarioGraph_eq⟩
  · simp [findAllPaths, emptyData]
  · simp [pathCount, findAllPaths, emptyData]
  · simp [averagePathLength, findAllPaths, emptyData]
  · intro g s sc hs hl hid hch
    simp only [findAllPaths, hs, hl]
    rw [explorePath_eq]
    rw [if_neg (List.not_mem_nil _)]
    rw [hid, hl]
    simp [hch]


theorem evictFront_eq_drop {α : Type} :
    ∀ (n : Nat) (l : List α), l.length ≤ n →
      evictFront l = l.drop (l.length - MAX_SNAPSHOTS) := by
  intro n
  induction n with
  | zero =>
    intro l hl
    have : l = [] := List.length_eq_zero.mp (Nat.le_zero.mp hl)
    rw [this, evictFront]
    simp [MAX_SNAPSHOTS]
  | succ n ih =>
    intro l hl
    rw [evictFront]
    by_cases hlen : MAX_SNAPSHOTS < l.length
    · rw [if_pos hlen]
      have htail : l.tail.length ≤ n := by
        simp only [List.length_tail]
        simp only [MAX_SNAPSHOTS] at hlen
        omega
      rw [ih l.tail htail]
      rw [← List.drop_one, List.drop_drop]
      congr 1
      simp only [List.length_drop, MAX_SNAPSHOTS] at *
      omega
    · rw [if_neg hlen]
      have : l.length - MAX_SNAPSHOTS = 0 := by
        simp only [MAX_SNAPSHOTS] at *
        omega
      rw [this, List.drop_zero]

theorem evictFront_eq_drop' {α : Type} (l : List α) :
    evictFront l = l.drop (l.length - MAX_SNAPSHOTS) :=
  evictFront_eq_drop l.length l le_rfl

theorem evictFront_concat {α : Type} (l : List α) (a : α) :
    evictFront (l ++ [a]) = l.drop (l.length + 1 - MAX_SNAPSHOTS) ++ [a] := by
  rw [evictFront_eq_drop']
  have hlen : (l ++ [a]).length = l.length + 1 := by simp
  rw [hlen]
  exact List.drop_append_of_le_length (by simp only [MAX_SNAPSHOTS]; omega)

theorem pushSnapshot_spec {V : Type} (ser : V → String) (titleOf : V → Option String)
    (ts : Nat) (state : V) (snapshots : List (Snap V)) :
    ∃ front last, (pushSnapshot ser titleOf ts state snapshots).1 = front ++ [last] ∧
      ser last.data = ser state ∧
      (pushSnapshot ser titleOf ts state snapshots).2 =
        (pushSnapshot ser titleOf ts state snapshots).1.length - 1 := by
  simp only [pushSnapshot]
  split
  · rename_i last hlast
    split
    · rename_i hser
      have hne : snapshots ≠ [] := by
        intro he
        rw [he] at hlast
        simp at hlast
      have hpos : 0 < snapshots.length := List.length_pos.mpr hne
      refine ⟨snapshots.dropLast, { last with ts := ts }, rfl, hser, ?_⟩
      simp only [List.length_append, List.length_dropLast, List.length_cons,
        List.length_nil]
      omega
    · rw [evictFront_concat]
      refine ⟨_, _, rfl, rfl, rfl⟩
  · rename_i hlast
    have hnil : snapshots = [] := List.getLast?_eq_none_iff.mp hlast
    subst hnil
    rw [evictFront_concat]
    refine ⟨_, _, rfl, rfl, rfl⟩

theorem pushSnapshot_not_dedup {V : Type} (ser : V → String) (titleOf : V → Option String)
    (ts : Nat) (state : V) (snapshots : List (Snap V))
    (h : ∀ last, snapshots.getLast? = some last → ser last.data ≠ ser state) :
    (pushSnapshot ser titleOf ts state snapshots).1 =
      snapshots.drop (snapshots.length + 1 - MAX_SNAPSHOTS) ++
        [{ ts := ts, data := state, title := titleOf state }] := by
  simp only [pushSnapshot]
  split
  · rename_i last hlast
    rw [if_neg (h last hlast)]
    rw [evictFront_concat]
  · rename_i hlast
    have hnil : snapshots = [] := List.getLast?_eq_none_iff.mp hlast
    subst hnil
    rw [evictFront_concat]

/-- Claim C3: an append immediately followed by an append of content with
identical serialization leaves the snapshot log's length unchanged, creates
no new entry (only the last entry's timestamp is refreshed in place) and
returns the same, unchanged index. -/
theorem pushSnapshot_dedup_refresh :
    ∀ {V : Type} (ser : V → String) (titleOf : V → Option String)
      (ts1 ts2 : Nat) (snaps : List (Snap V)) (x y : V), ser y = ser x →
      (pushSnapshot ser titleOf ts2 y (pushSnapshot ser titleOf ts1 x snaps).1).1.length =
        (pushSnapshot ser titleOf ts1 x snaps).1.length ∧
      (pushSnapshot ser titleOf ts2 y (pushSnapshot ser titleOf ts1 x snaps).1).2 =
        (pushSnapshot ser titleOf ts1 x snaps).2 ∧
      ∃ (front : List (Snap V)) (last : Snap V),
        (pushSnapshot ser titleOf ts1 x snaps).1 = front ++ [last] ∧
        (pushSnapshot ser titleOf ts2 y (pushSnapshot ser titleOf ts1 x snaps).1).1 =
          front ++ [{ last with ts := ts2 }] := by
  intro V ser titleOf ts1 ts2 snaps x y hxy
  obtain ⟨front, last, hsplit, hser, hidx⟩ := pushSnapshot_spec ser titleOf ts1 x snaps
  have hcond : ser last.data = ser y := by rw [hser, hxy]
  have hsecond : pushSnapshot ser titleOf ts2 y (front ++ [last]) =
      ((front ++ [last]).dropLast ++ [({ last with ts := ts2 } : Snap V)],
        (front ++ [last]).length - 1) := by
    simp only [pushSnapshot, List.getLast?_concat]
    rw [if_pos hcond]
  rw [hsplit] at hidx
  rw [hsplit, hsecond]
  refine ⟨?_, ?_, ?_⟩
  · simp
  · rw [hidx]
  · exact ⟨front, last, rfl, by simp⟩

/-- Closed witness for C3 at a concrete input: a second append of the same
string leaves the one-element log and its index unchanged, refreshing the
timestamp. -/
theorem pushSnapshot_dedup_refresh_witness :
    (pushSnapshot id (fun _ => none) 2 "a" (pushSnapshot id (fun _ => none) 1 "a" []).1).1.length =
      (pushSnapshot id (fun _ => none) 1 "a" []).1.length ∧
    (pushSnapshot id (fun _ => none) 2 "a" (pushSnapshot id (fun _ => none) 1 "a" []).1).2 =
      (pushSnapshot id (fun _ => none) 1 "a" []).2 ∧
    ∃ front last, (pushSnapshot id (fun _ => none) 1 "a" []).1 = front ++ [last] ∧
      (pushSnapshot id (fun _ => none) 2 "a" (pushSnapshot id (fun _ => none) 1 "a" []).1).1 =
        front ++ [{ last with ts := 2 }] :=
  pushSnapshot_dedup_refresh id (fun _ => none) 1 2 [] "a" "a" rfl


theorem pushAll_map_data {V : Type} (ser : V → String) (titleOf : V → Option String) :
    ∀ entries : List (Nat × V),
      (entries.map Prod.snd).Pairwise (fun a b => ser a ≠ ser b) →
      (pushAll ser titleOf entries []).map Snap.data =
        (entries.map Prod.snd).drop (entries.length - MAX_SNAPSHOTS) := by
  intro entries
  induction entries using List.reverseRecOn with
  | nil => intro _; simp [pushAll, MAX_SNAPSHOTS]
  | append_singleton es e ih =>
    intro hpw
    rw [List.map_append, List.pairwise_append] at hpw
    obtain ⟨hpes, _, hcross⟩ := hpw
    have ih' := ih hpes
    have hfold : pushAll ser titleOf (es ++ [e]) [] =
        (pushSnapshot ser titleOf e.1 e.2 (pushAll ser titleOf es [])).1 := by
      simp [pushAll]
    have hloglen : (pushAll ser titleOf es []).length =
        es.length - (es.length - MAX_SNAPSHOTS) := by
      have hc := congrArg List.length ih'
      simpa using hc
    have hnot : ∀ last, (pushAll ser titleOf es []).getLast? = some last →
        ser last.data ≠ ser e.2 := by
      intro last hlast
      have h1 : last.data ∈ (pushAll ser titleOf es []).map Snap.data :=
        List.mem_map_of_mem Snap.data (List.mem_of_getLast?_eq_some hlast)
      rw [ih'] at h1
      have h2 : last.data ∈ es.map Prod.snd := List.mem_of_mem_drop h1
      exact hcross last.data h2 e.2 (by simp)
    rw [hfold, pushSnapshot_not_dedup ser titleOf e.1 e.2 _ hnot]
    rw [List.map_append, List.map_drop, ih']
    rw [List.drop_drop]
    have hre : (es ++ [e]).map Prod.snd = es.map Prod.snd ++ [e.2] := by simp
    rw [hre]
    have hle : (es ++ [e]).length - MAX_SNAPSHOTS ≤ (es.map Prod.snd).length := by
      simp only [List.length_append, List.length_cons, List.length_nil,
        List.length_map, MAX_SNAPSHOTS]
      omega
    rw [List.drop_append_of_le_length hle]
    have hmapone : ([{ ts := e.1, data := e.2, title := titleOf e.2 }] :
        List (Snap V)).map Snap.data = [e.2] := by simp
    rw [hmapone]
    congr 2
    simp only [List.length_append, List.length_cons, List.length_nil,
      List.length_map, MAX_SNAPSHOTS] at *
    omega

/-- Claim C4: appending any sequence of snapshots with pairwise-distinct
serialized contents to the empty log never leaves more than 25 entries, and
afterwards the log holds exactly the most recently appended 25 (all of
them, when fewer) in append order: the oldest entries were evicted first. -/
theorem pushAll_distinct_bound_fifo :
    ∀ {V : Type} (ser : V → String) (titleOf : V → Option String)
      (entries : List (Nat × V)),
      (entries.map Prod.snd).Pairwise (fun a b => ser a ≠ ser b) →
      (pushAll ser titleOf entries []).length ≤ MAX_SNAPSHOTS ∧
      (pushAll ser titleOf entries []).map Snap.data =
        (entries.map Prod.snd).drop (entries.length - MAX_SNAPSHOTS) := by
  intro V ser titleOf entries hpw
  have hmap := pushAll_map_data ser titleOf entries hpw
  refine ⟨?_, hmap⟩
  have hc := congrArg List.length hmap
  simp only [List.length_map, List.length_drop] at hc
  rw [hc]
  simp only [MAX_SNAPSHOTS]
  omega

/-- Closed witness for C4: pushing 26 pairwise-distinct strings leaves at
most 25 entries holding the 25 most recent contents. -/
theorem pushAll_distinct_bound_fifo_witness :
    (pushAll id (fun _ => none) sampleEntries []).length ≤ MAX_SNAPSHOTS ∧
    (pushAll id (fun _ => none) sampleEntries []).map Snap.data =
      (sampleEntries.map Prod.snd).drop (sampleEntries.length - MAX_SNAPSHOTS) :=
  pushAll_distinct_bound_fifo id (fun _ => none) sampleEntries (by decide)


/-- Claim C6: with the prior content captured as the most recent snapshot
and the live story mutated away from it, `handleUndo` restores that prior
content (found by scanning the log from most recent to oldest for the first
entry differing from the current content) and reports "Undo"; a
`handleRedo` right after restores the content that was live just before
the undo and reports "Redo". -/
theorem undo_then_redo :
    ∀ {V : Type} (ser : V → String) (titleOf : V → Option String) (truthy : V → Bool)
      (ts1 ts2 : Nat) (s : SysState V) (front : List (Snap V)) (snapA : Snap V),
      s.snaps = front ++ [snapA] → ser snapA.data ≠ ser s.live →
      ((handleUndo ser titleOf ts1 s).1.live = snapA.data ∧
        (handleUndo ser titleOf ts1 s).2 = "Undo") ∧
      ((handleRedo ser titleOf truthy ts2 (handleUndo ser titleOf ts1 s).1).1.live = s.live ∧
        (handleRedo ser titleOf truthy ts2 (handleUndo ser titleOf ts1 s).1).2 = "Redo") := by
  intro V ser titleOf truthy ts1 ts2 s front snapA hsnaps hne
  have hlen : ¬ s.snaps.length = 0 := by rw [hsnaps]; simp
  have hfind : s.snaps.reverse.find? (fun sn => ser sn.data != ser s.live) = some snapA := by
    rw [hsnaps, List.reverse_concat]
    exact List.find?_cons_of_pos _ (by simpa using hne)
  have hundo : handleUndo ser titleOf ts1 s =
      ({ s with
          snaps := (pushSnapshot ser titleOf ts1 s.live s.snaps).1
          lastSaved := some ts1
          redoStack := s.redoStack ++ [(pushSnapshot ser titleOf ts1 s.live s.snaps).2]
          live := snapA.data
          lastHash := some (ser snapA.data) }, "Undo") := by
    unfold handleUndo
    rw [if_neg hlen, hfind]
  have hpush : (pushSnapshot ser titleOf ts1 s.live s.snaps).1 =
      s.snaps.drop (s.snaps.length + 1 - MAX_SNAPSHOTS) ++
        [{ ts := ts1, data := s.live, title := titleOf s.live }] := by
    apply pushSnapshot_not_dedup
    intro last hlast
    rw [hsnaps, List.getLast?_concat] at hlast
    injection hlast with hlast
    rw [← hlast]
    exact hne
  obtain ⟨f2, l2, hsp, hser2, hidx⟩ := pushSnapshot_spec ser titleOf ts1 s.live s.snaps
  have hlast1 : (pushSnapshot ser titleOf ts1 s.live s.snaps).1.getLast? =
      some { ts := ts1, data := s.live, title := titleOf s.live } := by
    rw [hpush]
    exact List.getLast?_concat _
  have hget : (pushSnapshot ser titleOf ts1 s.live s.snaps).1[
      (pushSnapshot ser titleOf ts1 s.live s.snaps).1.length - 1]? =
      some { ts := ts1, data := s.live, title := titleOf s.live } := by
    rw [← List.getLast?_eq_getElem?]
    exact hlast1
  refine ⟨⟨by rw [hundo], by rw [hundo]⟩, ?_⟩
  rw [hundo]
  simp only [handleRedo, List.getLast?_concat]
  rw [hidx, hget]
  by_cases htr : truthy snapA.data = true
  · simp only [htr, if_true]
    constructor <;> trivial
  · simp only [Bool.not_eq_true] at htr
    simp only [htr, Bool.false_eq_true, if_false]
    constructor <;> trivial

/-- Closed witness for C6: one concrete undo restores the snapshotted
string "A" over the mutated live value "B", and the following redo
restores "B". -/
theorem undo_then_redo_witness :
    ((handleUndo id (fun _ => none) 1
        ⟨[⟨0, "A", none⟩], none, none, [], [], "B"⟩).1.live = "A" ∧
      (handleUndo id (fun _ => none) 1
        ⟨[⟨0, "A", none⟩], none, none, [], [], "B"⟩).2 = "Undo") ∧
    ((handleRedo id (fun _ => none) (fun _ => true) 2
        (handleUndo id (fun _ => none) 1
          ⟨[⟨0, "A", none⟩], none, none, [], [], "B"⟩).1).1.live = "B" ∧
      (handleRedo id (fun _ => none) (fun _ => true) 2
        (handleUndo id (fun _ => none) 1
          ⟨[⟨0, "A", none⟩], none, none, [], [], "B"⟩).1).2 = "Redo") :=
  undo_then_redo id (fun _ => none) (fun _ => true) 1 2
    ⟨[⟨0, "A", none⟩], none, none, [], [], "B"⟩ [] ⟨0, "A", none⟩ rfl (by decide)

/-- Claim C7: a tick that observes changed live content clears the redo
stack, so a following `handleRedo` reports "Nothing to redo" and leaves the
whole state, in particular the live story, unchanged. -/
theorem tick_clears_redo :
    ∀ {V : Type} (ser : V → String) (titleOf : V → Option String) (truthy : V → Bool)
      (ts1 ts2 : Nat) (s : SysState V),
      truthy s.live = true → ¬ s.lastHash = some (ser s.live) →
      (autosaveTick ser titleOf truthy ts1 s).redoStack = [] ∧
      handleRedo ser titleOf truthy ts2 (autosaveTick ser titleOf truthy ts1 s) =
        (autosaveTick ser titleOf truthy ts1 s, "Nothing to redo") := by
  intro V ser titleOf truthy ts1 ts2 s htr hhash
  have htick : autosaveTick ser titleOf truthy ts1 s =
      { s with
          lastHash := some (ser s.live)
          snaps := (pushSnapshot ser titleOf ts1 s.live s.snaps).1
          lastSaved := some ts1
          undoStack := s.undoStack ++ [(pushSnapshot ser titleOf ts1 s.live s.snaps).2]
          redoStack := [] } := by
    unfold autosaveTick
    rw [if_neg (by rw [htr]; simp), if_neg hhash]
  refine ⟨by rw [htick], ?_⟩
  rw [htick]
  simp only [handleRedo]
  rfl

/-- Closed witness for C7: a concrete changed tick leaves an empty redo
stack and the redo after it reports "Nothing to redo". -/
theorem tick_clears_redo_witness :
    (autosaveTick id (fun _ => none) (fun _ => true) 1
      ⟨[], none, none, [], [7], "B"⟩).redoStack = [] ∧
    handleRedo id (fun _ => none) (fun _ => true) 2
        (autosaveTick id (fun _ => none) (fun _ => true) 1
          ⟨[], none, none, [], [7], "B"⟩) =
      (autosaveTick id (fun _ => none) (fun _ => true) 1
        ⟨[], none, none, [], [7], "B"⟩, "Nothing to redo") :=
  tick_clears_redo id (fun _ => none) (fun _ => true) 1 2
    ⟨[], none, none, [], [7], "B"⟩ rfl (by decide)


/-- Claim C9: a payload whose `scenes` property is not object-typed (as in
`{scenes: "not-an-object"}`, but also a number, a boolean, or a missing
property) is rejected by `importJSON` with the format-error message, and
the current state is returned unchanged. -/
theorem importJSON_rejects_nonobject_scenes :
    ∀ (current payload : JSValue),
      ¬ typeofProp payload "scenes" = "object" →
      importJSON current payload = (current, "Invalid story file format.") := by
  intro current payload htype
  unfold importJSON
  rw [if_neg]
  intro hcond
  rw [Bool.and_eq_true] at hcond
  exact htype (by simpa using hcond.2)

/-- Closed witness for C9: the literal payload `{scenes: "not-an-object"}`
has a string-typed `scenes`, is rejected, and the current state comes back
untouched. -/
theorem importJSON_rejects_nonobject_scenes_witness :
    importJSON (JSValue.vobj [("scenes", JSValue.vobj [])])
        (JSValue.vobj [("scenes", JSValue.vstr "not-an-object")]) =
      (JSValue.vobj [("scenes", JSValue.vobj [])], "Invalid story file format.") :=
  importJSON_rejects_nonobject_scenes (JSValue.vobj [("scenes", JSValue.vobj [])])
    (JSValue.vobj [("scenes", JSValue.vstr "not-an-object")]) (by decide)

/-- Claim C10: because the only validation is
`typeof importedData.scenes === 'object'` and `typeof null` is "object" in
JS, the payload `{scenes: null}` passes validation and replaces the live
state, even though its `scenes` is not an id-to-scene object: import does
not reject every payload whose `scenes` fails to be such an object. -/
theorem importJSON_accepts_null_scenes :
    ∀ current : JSValue,
      typeofProp (JSValue.vobj [("scenes", JSValue.vnull)]) "scenes" = "object" ∧
      importJSON current (JSValue.vobj [("scenes", JSValue.vnull)]) =
        (JSValue.vobj [("scenes", JSValue.vnull)], "Story imported successfully!") ∧
      (∀ fields : List (String × JSValue), JSValue.vnull ≠ JSValue.vobj fields) := by
  intro current
  refine ⟨rfl, rfl, ?_⟩
  intro fields h
  exact JSValue.noConfusion h

end StoryWeaver
